import Mathlib

/-!
Shallow embedding of the Flicksy backend (src/backend/server.py) and proofs
of the specified properties of its engagement, ranking and moderation core.

Records mirror the persisted document shapes; each endpoint handler is
translated into a pure function threading the database state explicitly.
MongoDB primitives are modelled on lists kept in insertion order:
`find_one` is `List.find?`, `insert_one` appends, `delete_one` is
`List.eraseP`, `delete_many` is `List.filter` with the negated predicate,
and `update_one` updates the first matching document (`updateFirst`).
`raise HTTPException` is modelled as an error result paired with the
unchanged state (every raise in the translated handlers happens before the
first write).  Timestamps are integers (seconds); `timedelta(hours=24)` is
86400.
-/

deriving instance DecidableEq for Except

namespace Flicksy

/-- Stable insertion step: place `x` before the first element `y` with
`le x y = true`. -/
def insertLE (le : α → α → Bool) (x : α) : List α → List α
  | [] => [x]
  | y :: ys => if le x y then x :: y :: ys else y :: insertLE le x ys

/-- Stable sort by the boolean comparator `le` (insertion sort), the model
of Mongo's stable `.sort(...)`: ties keep their stored order. -/
def sortByLE (le : α → α → Bool) : List α → List α
  | [] => []
  | x :: xs => insertLE le x (sortByLE le xs)

/-- Mirror of `HTTPException` (status code and detail message). -/
structure HTTPError where
  status_code : Nat
  detail : String
deriving DecidableEq, Repr

/-- Persisted user document (`db.users`), fields as in `User` plus
`is_banned` (added at registration time). -/
structure UserR where
  id : String
  username : String
  email : String
  display_name : String
  bio : Option String
  is_verified : Bool
  role : String
  is_banned : Bool
  followers_count : Int
  following_count : Int
  posts_count : Int
  created_at : Int
deriving DecidableEq, Repr

/-- Persisted post document (`db.posts`), fields as in `Post`. -/
structure PostR where
  id : String
  content : String
  author_id : String
  author_username : String
  author_display_name : String
  author_is_verified : Bool
  created_at : Int
  likes_count : Int
  comments_count : Int
  reposts_count : Int
deriving DecidableEq, Repr

/-- Persisted comment document (`db.comments`), fields as in `Comment`. -/
structure CommentR where
  id : String
  content : String
  post_id : String
  author_id : String
  author_username : String
  author_display_name : String
  author_is_verified : Bool
  created_at : Int
  likes_count : Int
deriving DecidableEq, Repr

/-- Persisted like document (`db.likes`), shape of `like_data` in
`toggle_like_post`. -/
structure LikeR where
  id : String
  user_id : String
  post_id : String
  created_at : Int
deriving DecidableEq, Repr

/-- Persisted verification request document (`db.verification_requests`),
fields as in `VerificationRequest`. -/
structure VerifReqR where
  id : String
  user_id : String
  user_username : String
  user_display_name : String
  reason : String
  status : String
  created_at : Int
  reviewed_by : Option String
  reviewed_at : Option Int
deriving DecidableEq, Repr

/-- The whole document store: one list per collection, in insertion order. -/
structure DB where
  users : List UserR
  posts : List PostR
  comments : List CommentR
  likes : List LikeR
  verification_requests : List VerifReqR
deriving DecidableEq, Repr

/-- Model of Mongo `update_one`: apply `f` to the first element satisfying
`p`, leave the rest unchanged. -/
def updateFirst (p : α → Bool) (f : α → α) : List α → List α
  | [] => []
  | x :: xs => if p x then f x :: xs else x :: updateFirst p f xs

/-- `toggle_like_post` (POST `/posts/{post_id}/like`).  Returns the `liked`
flag of the response.  `new_like_id` stands for the fresh `uuid4` and `now`
for `datetime.now`. -/
def toggle_like_post (db : DB) (post_id : String) (current_user : UserR)
    (new_like_id : String) (now : Int) : Except HTTPError Bool × DB :=
  match db.posts.find? (fun p => p.id == post_id) with
  | none => (.error ⟨404, "Post not found"⟩, db)
  | some _ =>
    match db.likes.find? (fun l => l.user_id == current_user.id && l.post_id == post_id) with
    | some existing_like =>
      (.ok false,
        { db with
          likes := db.likes.eraseP (fun l => l.id == existing_like.id)
          posts := updateFirst (fun p => p.id == post_id)
            (fun p => { p with likes_count := p.likes_count - 1 }) db.posts })
    | none =>
      let like_data : LikeR :=
        { id := new_like_id, user_id := current_user.id, post_id := post_id, created_at := now }
      (.ok true,
        { db with
          likes := db.likes ++ [like_data]
          posts := updateFirst (fun p => p.id == post_id)
            (fun p => { p with likes_count := p.likes_count + 1 }) db.posts })

/-- `create_post` (POST `/posts`).  `new_post_id` stands for the fresh
`uuid4`, `now` for the creation timestamp.  Content length validation
(1-500) is performed by the request schema, outside this handler. -/
def create_post (db : DB) (content : String) (current_user : UserR)
    (new_post_id : String) (now : Int) : Except HTTPError PostR × DB :=
  if current_user.is_banned then
    (.error ⟨403, "Account suspended - cannot create posts"⟩, db)
  else
    let post : PostR :=
      { id := new_post_id, content := content, author_id := current_user.id,
        author_username := current_user.username,
        author_display_name := current_user.display_name,
        author_is_verified := current_user.is_verified,
        created_at := now, likes_count := 0, comments_count := 0, reposts_count := 0 }
    (.ok post,
      { db with
        posts := db.posts ++ [post]
        users := updateFirst (fun v => v.id == current_user.id)
          (fun v => { v with posts_count := v.posts_count + 1 }) db.users })

/-- `create_comment` (POST `/posts/{post_id}/comments`). -/
def create_comment (db : DB) (post_id : String) (content : String)
    (current_user : UserR) (new_comment_id : String) (now : Int) :
    Except HTTPError CommentR × DB :=
  if current_user.is_banned then
    (.error ⟨403, "Account suspended - cannot comment"⟩, db)
  else
    match db.posts.find? (fun p => p.id == post_id) with
    | none => (.error ⟨404, "Post not found"⟩, db)
    | some _ =>
      let comment : CommentR :=
        { id := new_comment_id, content := content, post_id := post_id,
          author_id := current_user.id, author_username := current_user.username,
          author_display_name := current_user.display_name,
          author_is_verified := current_user.is_verified,
          created_at := now, likes_count := 0 }
      (.ok comment,
        { db with
          comments := db.comments ++ [comment]
          posts := updateFirst (fun p => p.id == post_id)
            (fun p => { p with comments_count := p.comments_count + 1 }) db.posts })

/-- `get_post_comments` (GET `/posts/{post_id}/comments`): 404 when the
post does not exist, else the post's comments sorted by `created_at`
ascending with skip/limit. -/
def get_post_comments (db : DB) (post_id : String) (limit skip : Nat) :
    Except HTTPError (List CommentR) :=
  match db.posts.find? (fun p => p.id == post_id) with
  | none => .error ⟨404, "Post not found"⟩
  | some _ =>
    .ok ((sortByLE (fun a b => decide (a.created_at ≤ b.created_at))
      (db.comments.filter (fun c => c.post_id == post_id))).drop skip |>.take limit)

/-- Step 1 of `delete_post_admin`: `db.posts.delete_one({"id": post_id})`. -/
def deletePostStepPosts (post_id : String) (db : DB) : DB :=
  { db with posts := db.posts.eraseP (fun p => p.id == post_id) }

/-- Step 2 of `delete_post_admin`: `db.comments.delete_many({"post_id": post_id})`. -/
def deletePostStepComments (post_id : String) (db : DB) : DB :=
  { db with comments := db.comments.filter (fun c => !(c.post_id == post_id)) }

/-- Step 3 of `delete_post_admin`: `db.likes.delete_many({"post_id": post_id})`. -/
def deletePostStepLikes (post_id : String) (db : DB) : DB :=
  { db with likes := db.likes.filter (fun l => !(l.post_id == post_id)) }

/-- Step 4 of `delete_post_admin`: decrement the author's `posts_count`. -/
def deletePostStepCounter (author_id : String) (db : DB) : DB :=
  { db with
    users := updateFirst (fun v => v.id == author_id)
      (fun v => { v with posts_count := v.posts_count - 1 }) db.users }

/-- `delete_post_admin` (DELETE `/admin/posts/{post_id}`): 404 when the post
does not exist, else the four mutation steps in source order. -/
def delete_post_admin (db : DB) (post_id : String) : Except HTTPError Unit × DB :=
  match db.posts.find? (fun p => p.id == post_id) with
  | none => (.error ⟨404, "Post not found"⟩, db)
  | some post =>
    (.ok (),
      deletePostStepCounter post.author_id
        (deletePostStepLikes post_id (deletePostStepComments post_id (deletePostStepPosts post_id db))))

/-- The three-key descending sort order of `get_trending_posts`:
`a` comes no later than `b` when sorting by
`[("likes_count", -1), ("comments_count", -1), ("created_at", -1)]`. -/
def TrendBefore (a b : PostR) : Prop :=
  b.likes_count < a.likes_count ∨
    (b.likes_count = a.likes_count ∧
      (b.comments_count < a.comments_count ∨
        (b.comments_count = a.comments_count ∧ b.created_at ≤ a.created_at)))

instance : DecidablePred fun ab : PostR × PostR => TrendBefore ab.1 ab.2 :=
  fun _ => by unfold TrendBefore; infer_instance

instance (a b : PostR) : Decidable (TrendBefore a b) := by
  unfold TrendBefore; infer_instance

/-- Boolean comparator fed to the (stable) sort, mirroring the Mongo sort
specification of `get_trending_posts`. -/
def trendLE (a b : PostR) : Bool := decide (TrendBefore a b)

/-- Attach the `liked_by_user` flag, as computed in the handlers: collect the
ids of the given posts, fetch the current user's likes restricted to those
ids, and mark each post by membership of its id in that set. -/
def markLiked (db : DB) (current_user : UserR) (posts : List PostR) :
    List (PostR × Bool) :=
  let post_ids := posts.map (fun p => p.id)
  let liked_posts := db.likes.filter
    (fun l => l.user_id == current_user.id && post_ids.contains l.post_id)
  let liked_post_ids := liked_posts.map (fun l => l.post_id)
  posts.map (fun p => (p, liked_post_ids.contains p.id))

/-- `get_trending_posts` (GET `/posts/trending`): posts of the trailing 24
hours, sorted by (likes desc, comments desc, created_at desc), truncated to
`limit`, each paired with its `liked_by_user` flag. -/
def get_trending_posts (db : DB) (limit : Nat) (now : Int) (current_user : UserR) :
    List (PostR × Bool) :=
  let twenty_four_hours_ago := now - 86400
  let posts := (sortByLE trendLE
    (db.posts.filter (fun p => decide (twenty_four_hours_ago ≤ p.created_at)))).take limit
  markLiked db current_user posts

/-- Is `needle` a prefix of the second list? -/
def charsPrefixOf : List Char → List Char → Bool
  | [], _ => true
  | _ :: _, [] => false
  | a :: as, b :: bs => a == b && charsPrefixOf as bs

/-- Is `needle` a contiguous sublist of the second list? -/
def charsInfixOf (needle : List Char) : List Char → Bool
  | [] => needle.isEmpty
  | b :: bs => charsPrefixOf needle (b :: bs) || charsInfixOf needle bs

/-- Case-insensitive substring match, modelling the
`{"$regex": re.escape(q), "$options": "i"}` filter. -/
def strContains (hay needle : String) : Bool :=
  charsInfixOf (needle.toList.map Char.toLower) (hay.toList.map Char.toLower)

/-- The user-side `$or` filter of `search` over username, display name and
bio (a missing bio matches nothing). -/
def userMatches (q : String) (u : UserR) : Bool :=
  strContains u.username q || strContains u.display_name q ||
    (match u.bio with
     | some b => strContains b q
     | none => false)

/-- `search` (GET `/search`): the users portion filters on the `$or` pattern
and `is_banned ≠ true` and truncates to `limit`; the posts portion filters
on content only, sorts by `created_at` descending, truncates to `limit` and
attaches `liked_by_user`. -/
def search (db : DB) (q : String) (ty : String) (limit : Nat)
    (current_user : UserR) : List UserR × List (PostR × Bool) :=
  let users :=
    if ty == "all" || ty == "users" then
      (db.users.filter (fun u => userMatches q u && !u.is_banned)).take limit
    else []
  let posts :=
    if ty == "all" || ty == "posts" then
      markLiked db current_user
        ((sortByLE (fun a b => decide (b.created_at ≤ a.created_at))
          (db.posts.filter (fun p => strContains p.content q))).take limit)
    else []
  (users, posts)

/-- `get_admin_user` dependency: 403 unless the caller's role is `admin` or
`super_admin`. -/
def get_admin_user (current_user : UserR) : Except HTTPError UserR :=
  if !(current_user.role == "admin" || current_user.role == "super_admin") then
    .error ⟨403, "Admin access required"⟩
  else .ok current_user

/-- `get_moderator_user` dependency: 403 unless the caller's role is
`moderator`, `admin` or `super_admin`. -/
def get_moderator_user (current_user : UserR) : Except HTTPError UserR :=
  if !(current_user.role == "moderator" || current_user.role == "admin" ||
      current_user.role == "super_admin") then
    .error ⟨403, "Moderator access required"⟩
  else .ok current_user

/-- `approve_verification` (POST `/admin/verification/{request_id}/approve`). -/
def approve_verification (db : DB) (request_id : String) (admin_user : UserR)
    (now : Int) : Except HTTPError Unit × DB :=
  match db.verification_requests.find? (fun r => r.id == request_id) with
  | none => (.error ⟨404, "Verification request not found"⟩, db)
  | some request =>
    if !(request.status == "pending") then
      (.error ⟨400, "Request has already been processed"⟩, db)
    else
      (.ok (),
        { db with
          verification_requests := updateFirst (fun r => r.id == request_id)
            (fun r =>
              { r with
                status := "approved"
                reviewed_by := some admin_user.id
                reviewed_at := some now }) db.verification_requests
          users := updateFirst (fun v => v.id == request.user_id)
            (fun v => { v with is_verified := true }) db.users })

/-- `reject_verification` (POST `/admin/verification/{request_id}/reject`).
Unlike approval it does not touch the users collection. -/
def reject_verification (db : DB) (request_id : String) (admin_user : UserR)
    (now : Int) : Except HTTPError Unit × DB :=
  match db.verification_requests.find? (fun r => r.id == request_id) with
  | none => (.error ⟨404, "Verification request not found"⟩, db)
  | some request =>
    if !(request.status == "pending") then
      (.error ⟨400, "Request has already been processed"⟩, db)
    else
      (.ok (),
        { db with
          verification_requests := updateFirst (fun r => r.id == request_id)
            (fun r =>
              { r with
                status := "rejected"
                reviewed_by := some admin_user.id
                reviewed_at := some now }) db.verification_requests })

/-- `ban_user` (POST `/admin/users/{user_id}/ban`): 404 when the target does
not exist, 400 when the target's current role is `admin` or `super_admin`,
else set the ban flag. -/
def ban_user (db : DB) (user_id : String) : Except HTTPError Unit × DB :=
  match db.users.find? (fun v => v.id == user_id) with
  | none => (.error ⟨404, "User not found"⟩, db)
  | some user =>
    if user.role == "admin" || user.role == "super_admin" then
      (.error ⟨400, "Cannot ban admin users"⟩, db)
    else
      (.ok (),
        { db with
          users := updateFirst (fun v => v.id == user_id)
            (fun v => { v with is_banned := true }) db.users })

/-- `unban_user` (POST `/admin/users/{user_id}/unban`): 404 when the target
does not exist, else clear the ban flag — no role restriction. -/
def unban_user (db : DB) (user_id : String) : Except HTTPError Unit × DB :=
  match db.users.find? (fun v => v.id == user_id) with
  | none => (.error ⟨404, "User not found"⟩, db)
  | some _ =>
    (.ok (),
      { db with
        users := updateFirst (fun v => v.id == user_id)
          (fun v => { v with is_banned := false }) db.users })

/-- Modelled from the spec: the role order user < moderator < admin =
super_admin, as a numeric rank (unknown role names rank lowest).  Used only
to compare the code's string-membership gates against the spec's order. -/
def specRoleRank (r : String) : Nat :=
  if r == "super_admin" then 2
  else if r == "admin" then 2
  else if r == "moderator" then 1
  else 0

/-! ### Iterated like toggles (for the alternation property) -/

/-- Run `toggle_like_post` once per element of `ids`, each element providing
the fresh like id and timestamp of that call; collect the results and the
final state. -/
def toggleN (db : DB) (post_id : String) (cu : UserR) :
    List (String × Int) → List (Except HTTPError Bool) × DB
  | [] => ([], db)
  | a :: rest =>
    let r := toggle_like_post db post_id cu a.1 a.2
    let q := toggleN r.2 post_id cu rest
    (r.1 :: q.1, q.2)

/-- The expected strictly alternating result sequence: starting from liked
state `b`, each call reports the negation of the state it found. -/
def altList : Bool → Nat → List (Except HTTPError Bool)
  | _, 0 => []
  | b, n + 1 => .ok (!b) :: altList (!b) n

/-- Whether a like relation for `(cu, post_id)` is currently present. -/
def likedIn (db : DB) (post_id : String) (cu : UserR) : Bool :=
  (db.likes.find? (fun l => l.user_id == cu.id && l.post_id == post_id)).isSome

/-- Each like id of the sequence is fresh for the state its call runs in
(the uuid4 freshness assumption, stated along the actual trace). -/
def toggleFresh (db : DB) (post_id : String) (cu : UserR) :
    List (String × Int) → Bool
  | [] => true
  | a :: rest =>
    !(db.likes.map (fun l => l.id)).contains a.1 &&
      toggleFresh (toggle_like_post db post_id cu a.1 a.2).2 post_id cu rest

/-- Number of like relations stored for the pair `(cu, post_id)` (the data
model demands at most one). -/
def pairCount (db : DB) (post_id : String) (cu : UserR) : Nat :=
  (db.likes.filter (fun l => l.user_id == cu.id && l.post_id == post_id)).length

/-! ### Reachable states under the core mutating operations -/

/-- One core mutating operation together with the request context the
handler receives (caller record, fresh uuid, timestamp). -/
inductive Op where
  | toggleLike (cu : UserR) (post_id : String) (new_like_id : String) (now : Int)
  | createPost (cu : UserR) (content : String) (new_post_id : String) (now : Int)
  | createComment (cu : UserR) (post_id : String) (content : String)
      (new_comment_id : String) (now : Int)
  | deletePost (post_id : String)

/-- The state after one operation (a failing request leaves the state as it
was: every raise in these handlers happens before the first write). -/
def applyOp (db : DB) : Op → DB
  | .toggleLike cu pid lid t => (toggle_like_post db pid cu lid t).2
  | .createPost cu c pid t => (create_post db c cu pid t).2
  | .createComment cu pid c cid t => (create_comment db pid c cu cid t).2
  | .deletePost pid => (delete_post_admin db pid).2

/-- The state after a sequence of operations. -/
def applyOps (db : DB) : List Op → DB
  | [] => db
  | op :: rest => applyOps (applyOp db op) rest

/-- Freshness of the uuid an operation consumes, relative to a state. -/
def opFresh (db : DB) : Op → Bool
  | .toggleLike _ _ lid _ => !(db.likes.map (fun l => l.id)).contains lid
  | .createPost _ _ pid _ => !(db.posts.map (fun p => p.id)).contains pid
  | .createComment _ _ _ _ _ => true
  | .deletePost _ => true

/-- Freshness of every uuid along the actual trace of a sequence. -/
def opsFresh (db : DB) : List Op → Bool
  | [] => true
  | op :: rest => opFresh db op && opsFresh (applyOp db op) rest

/-- The quiescent-point consistency invariant: every post's `likes_count`
and `comments_count` equal the number of like relations and comments
referencing it; likes and comments reference existing posts; post ids and
like ids are unique. -/
def Inv (db : DB) : Prop :=
  (∀ p ∈ db.posts,
      p.likes_count = ((db.likes.filter (fun l => l.post_id == p.id)).length : Int) ∧
      p.comments_count = ((db.comments.filter (fun c => c.post_id == p.id)).length : Int)) ∧
  (∀ l ∈ db.likes, l.post_id ∈ db.posts.map (fun p => p.id)) ∧
  (∀ c ∈ db.comments, c.post_id ∈ db.posts.map (fun p => p.id)) ∧
  (db.posts.map (fun p => p.id)).Nodup ∧
  (db.likes.map (fun l => l.id)).Nodup

instance (db : DB) : Decidable (Inv db) := by
  unfold Inv; infer_instance

/-! ### Sample records used by the concrete witnesses and counterexamples -/

/-- A banned ordinary user. -/
def bobBanned : UserR :=
  { id := "ub", username := "banned_bob", email := "bob@example.com",
    display_name := "Bob", bio := none, is_verified := false, role := "user",
    is_banned := true, followers_count := 0, following_count := 0,
    posts_count := 1, created_at := 0 }

/-- A post authored by the banned user, content matching the query `hello`. -/
def bobPost : PostR :=
  { id := "p1", content := "hello world", author_id := "ub",
    author_username := "banned_bob", author_display_name := "Bob",
    author_is_verified := false, created_at := 0, likes_count := 0,
    comments_count := 0, reposts_count := 0 }

/-- A state holding only the banned user and their post. -/
def dbBanned : DB :=
  { users := [bobBanned], posts := [bobPost], comments := [], likes := [],
    verification_requests := [] }

/-- An ordinary (non-banned) user. -/
def alice : UserR :=
  { id := "ua", username := "alice", email := "alice@example.com",
    display_name := "Alice", bio := some "hi", is_verified := false,
    role := "user", is_banned := false, followers_count := 0,
    following_count := 0, posts_count := 1, created_at := 0 }

/-- An admin user. -/
def adaAdmin : UserR :=
  { id := "adm", username := "ada", email := "ada@example.com",
    display_name := "Ada", bio := none, is_verified := true, role := "admin",
    is_banned := false, followers_count := 0, following_count := 0,
    posts_count := 0, created_at := 0 }

/-- A moderator user. -/
def maxMod : UserR :=
  { id := "mod", username := "max", email := "max@example.com",
    display_name := "Max", bio := none, is_verified := false,
    role := "moderator", is_banned := false, followers_count := 0,
    following_count := 0, posts_count := 0, created_at := 0 }

/-- A post authored by `alice`, with one comment and one like in `dbAlice`. -/
def alicePost : PostR :=
  { id := "pa", content := "my first post", author_id := "ua",
    author_username := "alice", author_display_name := "Alice",
    author_is_verified := false, created_at := 10, likes_count := 1,
    comments_count := 1, reposts_count := 0 }

/-- A comment of `adaAdmin` on `alicePost`. -/
def aliceComment : CommentR :=
  { id := "ca", content := "nice", post_id := "pa", author_id := "adm",
    author_username := "ada", author_display_name := "Ada",
    author_is_verified := true, created_at := 11, likes_count := 0 }

/-- A like of `adaAdmin` on `alicePost`. -/
def aliceLike : LikeR :=
  { id := "la", user_id := "adm", post_id := "pa", created_at := 12 }

/-- A state with one post carrying one comment and one like. -/
def dbAlice : DB :=
  { users := [alice, adaAdmin], posts := [alicePost],
    comments := [aliceComment], likes := [aliceLike],
    verification_requests := [] }

/-- A pending verification request of `alice`. -/
def reqPending : VerifReqR :=
  { id := "r1", user_id := "ua", user_username := "alice",
    user_display_name := "Alice", reason := "i am a public figure",
    status := "pending", created_at := 3, reviewed_by := none,
    reviewed_at := none }

/-- An already-approved verification request of `alice`. -/
def reqDone : VerifReqR :=
  { id := "r2", user_id := "ua", user_username := "alice",
    user_display_name := "Alice", reason := "i am a public figure",
    status := "approved", created_at := 1, reviewed_by := some "adm",
    reviewed_at := some 2 }

/-- A state with one pending and one processed verification request. -/
def dbVerif : DB :=
  { users := [alice, adaAdmin], posts := [], comments := [], likes := [],
    verification_requests := [reqPending, reqDone] }

/-- Trending sample: 5 likes and 2 comments, in the window. -/
def trendA : PostR :=
  { id := "tA", content := "a", author_id := "ua", author_username := "alice",
    author_display_name := "Alice", author_is_verified := false,
    created_at := 99000, likes_count := 5, comments_count := 2,
    reposts_count := 0 }

/-- Trending sample: 5 likes and 1 comment, in the window. -/
def trendB : PostR :=
  { id := "tB", content := "b", author_id := "ua", author_username := "alice",
    author_display_name := "Alice", author_is_verified := false,
    created_at := 99500, likes_count := 5, comments_count := 1,
    reposts_count := 0 }

/-- Trending sample: 3 likes and 9 comments, in the window. -/
def trendC : PostR :=
  { id := "tC", content := "c", author_id := "ua", author_username := "alice",
    author_display_name := "Alice", author_is_verified := false,
    created_at := 99900, likes_count := 3, comments_count := 9,
    reposts_count := 0 }

/-- A state holding the three trending sample posts (stored in reverse
order of the expected output, so the order below is the sort's doing). -/
def dbTrend : DB :=
  { users := [alice], posts := [trendC, trendB, trendA], comments := [],
    likes := [], verification_requests := [] }

/-! ### Toolkit: lemmas about `updateFirst`, `List.eraseP` and `List.find?` -/

theorem updateFirst_map_of_preserve {g : α → β} {p : α → Bool} {f : α → α}
    (h : ∀ x, g (f x) = g x) (l : List α) :
    (updateFirst p f l).map g = l.map g := by
  induction l with
  | nil => rfl
  | cons x xs ih =>
    by_cases hx : p x = true
    · simp [updateFirst, hx, h]
    · simp [updateFirst, hx, ih]

theorem updateFirst_updateFirst {p : α → Bool} {f g : α → α}
    (h : ∀ x, p (g x) = p x) (l : List α) :
    updateFirst p f (updateFirst p g l) = updateFirst p (fun x => f (g x)) l := by
  induction l with
  | nil => rfl
  | cons x xs ih =>
    by_cases hx : p x = true
    · simp [updateFirst, hx, h]
    · simp [updateFirst, hx, ih]

theorem updateFirst_eq_self {p : α → Bool} {f : α → α}
    (h : ∀ x, p x = true → f x = x) (l : List α) :
    updateFirst p f l = l := by
  induction l with
  | nil => rfl
  | cons x xs ih =>
    by_cases hx : p x = true
    · simp [updateFirst, hx, h x hx]
    · simp [updateFirst, hx, ih]

theorem find?_updateFirst {p : α → Bool} {f : α → α}
    (h : ∀ x, p x = true → p (f x) = true) (l : List α) :
    (updateFirst p f l).find? p = (l.find? p).map f := by
  induction l with
  | nil => rfl
  | cons x xs ih =>
    by_cases hx : p x = true
    · simp [updateFirst, hx, List.find?_cons_of_pos, h x hx]
    · simp [updateFirst, hx, List.find?_cons_of_neg, ih]

theorem mem_updateFirst_of_neg {p : α → Bool} {f : α → α} {l : List α} {y : α}
    (hy : y ∈ l) (hp : p y = false) : y ∈ updateFirst p f l := by
  induction l with
  | nil => cases hy
  | cons x xs ih =>
    rcases List.mem_cons.mp hy with h | h
    · subst h
      simp [updateFirst, hp]
    · by_cases hx : p x = true
      · simp only [updateFirst, hx, if_pos]
        exact List.mem_cons_of_mem _ h
      · simp only [updateFirst, hx, if_neg, Bool.false_eq_true, not_false_iff]
        exact List.mem_cons_of_mem _ (ih h)

/-- Membership in a key-addressed `updateFirst` when keys are unique: every
element of the updated list is either an untouched element whose key
differs, or the image of a (unique) element carrying the key. -/
theorem mem_updateFirst_key {key : α → String} {k : String} {f : α → α} {l : List α}
    (hnd : (l.map key).Nodup) {y : α}
    (hy : y ∈ updateFirst (fun x => key x == k) f l) :
    (y ∈ l ∧ (key y == k) = false) ∨ ∃ x, x ∈ l ∧ (key x == k) = true ∧ y = f x := by
  induction l with
  | nil => cases hy
  | cons x xs ih =>
    have hnd2 : (xs.map key).Nodup := (List.nodup_cons.mp hnd).2
    have hkx : key x ∉ xs.map key := (List.nodup_cons.mp hnd).1
    by_cases hx : (key x == k) = true
    · simp only [updateFirst, hx, if_pos] at hy
      rcases List.mem_cons.mp hy with h | h
      · exact Or.inr ⟨x, List.mem_cons_self x xs, hx, h⟩
      · left
        refine ⟨List.mem_cons_of_mem _ h, ?_⟩
        by_contra hc
        have hkyk : key y = k := by
          have := Bool.eq_false_iff.not.mp hc
          simp only [not_not] at this
          exact beq_iff_eq.mp this
        have hxk : key x = k := beq_iff_eq.mp hx
        exact hkx (hxk ▸ hkyk ▸ List.mem_map_of_mem key h)
    · simp only [updateFirst, hx, if_neg, Bool.false_eq_true, not_false_iff] at hy
      rcases List.mem_cons.mp hy with h | h
      · subst h
        exact Or.inl ⟨List.mem_cons_self y xs, Bool.eq_false_iff.mpr (by simp_all)⟩
      · rcases ih hnd2 h with ⟨h1, h2⟩ | ⟨z, hz, hpz, hyz⟩
        · exact Or.inl ⟨List.mem_cons_of_mem _ h1, h2⟩
        · exact Or.inr ⟨z, List.mem_cons_of_mem _ hz, hpz, hyz⟩

/-- With unique keys, searching an element's own key finds that element. -/
theorem find?_key_of_mem {key : α → String} {l : List α} {x : α}
    (hnd : (l.map key).Nodup) (hx : x ∈ l) :
    l.find? (fun y => key y == key x) = some x := by
  induction l with
  | nil => cases hx
  | cons h t ih =>
    have hnd1 : key h ∉ t.map key := (List.nodup_cons.mp hnd).1
    have hnd2 : (t.map key).Nodup := (List.nodup_cons.mp hnd).2
    rcases List.mem_cons.mp hx with rfl | hxt
    · rw [List.find?_cons_of_pos _ (by simp)]
    · by_cases hh : (key h == key x) = true
      · exact absurd ((beq_iff_eq.mp hh) ▸ List.mem_map_of_mem key hxt) hnd1
      · rw [List.find?_cons_of_neg _ (by simpa using hh)]
        exact ih hnd2 hxt

theorem mem_insertLE {le : α → α → Bool} {x z : α} {l : List α} :
    z ∈ insertLE le x l ↔ z = x ∨ z ∈ l := by
  induction l with
  | nil => simp [insertLE]
  | cons y ys ih =>
    by_cases h : le x y = true
    · simp [insertLE, h, List.mem_cons]
    · simp only [insertLE, h, Bool.false_eq_true, if_false, List.mem_cons, ih]
      tauto

theorem insertLE_perm (le : α → α → Bool) (x : α) (l : List α) :
    (insertLE le x l).Perm (x :: l) := by
  induction l with
  | nil => simp [insertLE]
  | cons y ys ih =>
    by_cases h : le x y = true
    · simp [insertLE, h]
    · simp only [insertLE, h, Bool.false_eq_true, if_false]
      exact (ih.cons y).trans (List.Perm.swap x y ys)

theorem sortByLE_perm (le : α → α → Bool) (l : List α) :
    (sortByLE le l).Perm l := by
  induction l with
  | nil => simp [sortByLE]
  | cons x xs ih =>
    exact (insertLE_perm le x (sortByLE le xs)).trans (ih.cons x)

theorem pairwise_insertLE {le : α → α → Bool}
    (total : ∀ a b, (le a b || le b a) = true)
    (htrans : ∀ a b c, le a b = true → le b c = true → le a c = true)
    {l : List α} (hl : l.Pairwise (fun a b => le a b = true)) (x : α) :
    (insertLE le x l).Pairwise (fun a b => le a b = true) := by
  induction l with
  | nil => simp [insertLE]
  | cons y ys ih =>
    rcases List.pairwise_cons.mp hl with ⟨hy, hys⟩
    by_cases h : le x y = true
    · simp only [insertLE, h, if_true]
      refine List.pairwise_cons.mpr ⟨?_, hl⟩
      intro z hz
      rcases List.mem_cons.mp hz with rfl | hz2
      · exact h
      · exact htrans x y z h (hy z hz2)
    · simp only [insertLE, h, Bool.false_eq_true, if_false]
      refine List.pairwise_cons.mpr ⟨?_, ih hys⟩
      intro z hz
      rcases mem_insertLE.mp hz with h0 | hz2
      · rw [h0]
        have htot := total x y
        simpa [h] using htot
      · exact hy z hz2

theorem pairwise_sortByLE {le : α → α → Bool}
    (total : ∀ a b, (le a b || le b a) = true)
    (htrans : ∀ a b c, le a b = true → le b c = true → le a c = true)
    (l : List α) : (sortByLE le l).Pairwise (fun a b => le a b = true) := by
  induction l with
  | nil => simp [sortByLE]
  | cons x xs ih => exact pairwise_insertLE total htrans ih x

/-- After erasing by a key carried by a member of a key-unique list, no
element carrying that key remains. -/
theorem eraseP_key_all_ne {key : α → String} {k : String} {l : List α} {x : α}
    (hnd : (l.map key).Nodup) (hx : x ∈ l) (hk : (key x == k) = true) :
    ∀ y ∈ l.eraseP (fun z => key z == k), (key y == k) = false := by
  have hk2 : (fun z => key z == k) x = true := hk
  obtain ⟨a, l1, l2, h1, h2, h3, h4⟩ :=
    @List.exists_of_eraseP _ (fun z => key z == k) l x hx hk2
  intro y hy
  rw [h4] at hy
  rcases List.mem_append.mp hy with h | h
  · exact Bool.eq_false_iff.mpr (h1 y h)
  · have hka : key a = k := beq_iff_eq.mp h2
    have hnotin : key a ∉ l2.map key := by
      rw [h3] at hnd
      simp only [List.map_append, List.map_cons, List.nodup_append] at hnd
      exact (List.nodup_cons.mp hnd.2.1).1
    refine Bool.eq_false_iff.mpr (fun hyk => hnotin ?_)
    have : key y = k := beq_iff_eq.mp hyk
    exact (hka.trans this.symm) ▸ List.mem_map_of_mem key h

/-- The boolean trending comparator is total. -/
theorem trendLE_total : ∀ a b, (trendLE a b || trendLE b a) = true := by
  intro a b
  simp only [trendLE, Bool.or_eq_true, decide_eq_true_eq, TrendBefore]
  omega

/-- The boolean trending comparator is transitive. -/
theorem trendLE_trans : ∀ a b c,
    trendLE a b = true → trendLE b c = true → trendLE a c = true := by
  intro a b c
  simp only [trendLE, decide_eq_true_eq, TrendBefore]
  omega

/-- Dropping the `liked_by_user` flags recovers the post list. -/
theorem markLiked_map_fst (db : DB) (cu : UserR) (posts : List PostR) :
    (markLiked db cu posts).map Prod.fst = posts := by
  simp only [markLiked, List.map_map]
  have : (Prod.fst ∘ fun p : PostR =>
      (p, (List.map (fun l => l.post_id)
        (List.filter (fun l => l.user_id == cu.id &&
          (List.map (fun p => p.id) posts).contains l.post_id) db.likes)).contains p.id)) =
      fun p : PostR => p := rfl
  rw [this, List.map_id']

theorem fst_mem_of_mem_markLiked {db : DB} {cu : UserR} {posts : List PostR}
    {pr : PostR × Bool} (h : pr ∈ markLiked db cu posts) : pr.1 ∈ posts := by
  rw [markLiked] at h
  obtain ⟨p, hp, hpr⟩ := List.mem_map.mp h
  rw [← hpr]
  exact hp

theorem length_markLiked (db : DB) (cu : UserR) (posts : List PostR) :
    (markLiked db cu posts).length = posts.length := by
  simp [markLiked]

/-! ### C9: role gates -/

/-- C9: a caller with role `moderator` fails the admin gate with Forbidden
(403); callers with role `admin` or `super_admin` pass the moderator gate;
and both gates decide exactly by the spec's total role order
user < moderator < admin = super_admin (rank at least 2 for the admin gate,
rank at least 1 for the moderator gate). -/
theorem role_gates (u : UserR) :
    (u.role = "moderator" → get_admin_user u = .error ⟨403, "Admin access required"⟩) ∧
    ((u.role = "admin" ∨ u.role = "super_admin") → get_moderator_user u = .ok u) ∧
    (get_admin_user u = .ok u ↔ 2 ≤ specRoleRank u.role) ∧
    (get_moderator_user u = .ok u ↔ 1 ≤ specRoleRank u.role) := by
  unfold get_admin_user get_moderator_user specRoleRank
  by_cases h1 : u.role = "super_admin" <;> by_cases h2 : u.role = "admin" <;>
    by_cases h3 : u.role = "moderator" <;> simp_all

/-- Witness for C9 at concrete users: the moderator is rejected by the
admin gate, the admin passes the moderator gate. -/
theorem role_gates_witness :
    get_admin_user maxMod = .error ⟨403, "Admin access required"⟩ ∧
    get_moderator_user adaAdmin = .ok adaAdmin :=
  ⟨(role_gates maxMod).1 rfl, (role_gates adaAdmin).2.1 (Or.inl rfl)⟩

/-! ### C6: terminal verification requests -/

/-- C6: once a verification request's status is `approved` or `rejected`,
both the approve and the reject handler answer 400 "Request has already
been processed" (the spec's `Conflict`) and return the state unchanged, so
no transition out of a terminal status is reachable. -/
theorem verification_terminal_conflict (db : DB) (rid : String)
    (admin_user : UserR) (now : Int) (req : VerifReqR)
    (hfind : db.verification_requests.find? (fun r => r.id == rid) = some req)
    (hterm : req.status = "approved" ∨ req.status = "rejected") :
    approve_verification db rid admin_user now =
      (.error ⟨400, "Request has already been processed"⟩, db) ∧
    reject_verification db rid admin_user now =
      (.error ⟨400, "Request has already been processed"⟩, db) := by
  have hnp : (req.status == "pending") = false := by
    rcases hterm with h | h <;> simp [h]
  unfold approve_verification reject_verification
  rw [hfind]
  simp [hnp]

/-- Witness for C6: the already-approved request `reqDone` is refused by
both handlers and the state is unchanged. -/
theorem verification_terminal_conflict_witness :
    dbVerif.verification_requests.find? (fun r => r.id == "r2") = some reqDone ∧
    (reqDone.status = "approved" ∨ reqDone.status = "rejected") ∧
    approve_verification dbVerif "r2" adaAdmin 7 =
      (.error ⟨400, "Request has already been processed"⟩, dbVerif) ∧
    reject_verification dbVerif "r2" adaAdmin 7 =
      (.error ⟨400, "Request has already been processed"⟩, dbVerif) := by
  refine ⟨by decide, Or.inl rfl, ?_⟩
  exact verification_terminal_conflict dbVerif "r2" adaAdmin 7 reqDone
    (by decide) (Or.inl rfl)

/-! ### C8: ban and unban -/

/-- C8: when the target's current role is `admin` or `super_admin`,
`ban_user` fails with 400 "Cannot ban admin users" and the state is
unchanged; `unban_user` has no role restriction: for a target of any role
it succeeds and clears the ban flag, leaving the other fields intact. -/
theorem ban_unban_rules (db : DB) (uid : String) (u : UserR)
    (hfind : db.users.find? (fun v => v.id == uid) = some u) :
    ((u.role = "admin" ∨ u.role = "super_admin") →
      ban_user db uid = (.error ⟨400, "Cannot ban admin users"⟩, db)) ∧
    (unban_user db uid).1 = .ok () ∧
    (unban_user db uid).2.users.find? (fun v => v.id == uid) =
      some { u with is_banned := false } := by
  refine ⟨?_, ?_, ?_⟩
  · intro hrole
    have hr : (u.role == "admin" || u.role == "super_admin") = true := by
      rcases hrole with h | h <;> simp [h]
    unfold ban_user
    rw [hfind]
    simp [hr]
  · unfold unban_user
    rw [hfind]
  · unfold unban_user
    rw [hfind]
    have hpres : ∀ x : UserR, ((fun v : UserR => v.id == uid) x) = true →
        ((fun v : UserR => v.id == uid) { x with is_banned := false }) = true :=
      fun x hx => hx
    simp only []
    rw [find?_updateFirst hpres db.users, hfind]
    rfl

/-- Witness for C8 applied at a concrete admin target: banning the admin
`adaAdmin` is refused with state unchanged, unbanning succeeds. -/
theorem ban_unban_rules_witness :
    dbVerif.users.find? (fun v => v.id == "adm") = some adaAdmin ∧
    ban_user dbVerif "adm" = (.error ⟨400, "Cannot ban admin users"⟩, dbVerif) ∧
    (unban_user dbVerif "adm").1 = .ok () ∧
    (unban_user dbVerif "adm").2.users.find? (fun v => v.id == "adm") =
      some { adaAdmin with is_banned := false } := by
  have h := ban_unban_rules dbVerif "adm" adaAdmin (by decide)
  exact ⟨by decide, h.1 (Or.inl rfl), h.2.1, h.2.2⟩

/-! ### C3 (corrected): the ban gate on the mutating operations -/

/-- C3 counterexample: the claim says a banned caller's `toggleLike` is
rejected with Forbidden and performs no mutation; in the code
`toggle_like_post` has no ban check — the banned user `bobBanned` likes a
post successfully and a like relation is inserted. -/
theorem toggle_like_ignores_ban_cex :
    bobBanned.is_banned = true ∧
    (toggle_like_post dbBanned "p1" bobBanned "l1" 5).1 = .ok true ∧
    dbBanned.likes = [] ∧
    (toggle_like_post dbBanned "p1" bobBanned "l1" 5).2.likes ≠ [] := by
  decide

/-- C3 (amended): for a banned caller, `create_post` and `create_comment`
reject with Forbidden (403) and leave the state unchanged, while
`toggle_like_post` performs no ban check: its whole outcome is independent
of the caller's ban flag. -/
theorem ban_gate_amended (db : DB) (cu : UserR) (hban : cu.is_banned = true)
    (content pid lid cid : String) (now : Int) :
    create_post db content cu pid now =
      (.error ⟨403, "Account suspended - cannot create posts"⟩, db) ∧
    create_comment db pid content cu cid now =
      (.error ⟨403, "Account suspended - cannot comment"⟩, db) ∧
    toggle_like_post db pid cu lid now =
      toggle_like_post db pid { cu with is_banned := false } lid now := by
  refine ⟨?_, ?_, rfl⟩
  · unfold create_post
    simp [hban]
  · unfold create_comment
    simp [hban]

/-- Witness for the amended C3 at the concrete banned user. -/
theorem ban_gate_amended_witness :
    bobBanned.is_banned = true ∧
    create_post dbBanned "hey" bobBanned "p9" 5 =
      (.error ⟨403, "Account suspended - cannot create posts"⟩, dbBanned) ∧
    create_comment dbBanned "p1" "hey" bobBanned "c9" 5 =
      (.error ⟨403, "Account suspended - cannot comment"⟩, dbBanned) ∧
    toggle_like_post dbBanned "p1" bobBanned "l1" 5 =
      toggle_like_post dbBanned "p1" { bobBanned with is_banned := false } "l1" 5 := by
  have h := ban_gate_amended dbBanned bobBanned rfl "hey" "p1" "l1" "c9" 5
  exact ⟨rfl, (ban_gate_amended dbBanned bobBanned rfl "hey" "p9" "l1" "c9" 5).1,
    h.2.1, h.2.2⟩

/-! ### C10: the ban filter in search -/

/-- C10: the users portion of a search result never contains a banned user
(the user query carries the filter `is_banned ≠ true`), while the posts
portion applies no author-ban filter: the post of the banned author
`bobBanned` is returned by a content search. -/
theorem search_excludes_banned_users :
    (∀ (db : DB) (q ty : String) (limit : Nat) (cu u : UserR),
        u ∈ (search db q ty limit cu).1 → u.is_banned = false) ∧
    (bobPost, false) ∈ (search dbBanned "hello" "posts" 10 bobBanned).2 ∧
    bobPost.author_id = bobBanned.id ∧ bobBanned.is_banned = true := by
  refine ⟨?_, by decide, rfl, rfl⟩
  intro db q ty limit cu u hu
  simp only [search] at hu
  by_cases hty : (ty == "all" || ty == "users") = true
  · simp only [hty, if_pos] at hu
    have hmem := List.mem_of_mem_take hu
    have hflt := (List.mem_filter.mp hmem).2
    simp only [Bool.and_eq_true, Bool.not_eq_true'] at hflt
    exact hflt.2
  · simp only [hty, if_neg, Bool.false_eq_true, not_false_iff] at hu
    cases hu

/-- Witness for C10: `alice` appears in a concrete user search and the
theorem yields that her ban flag is clear; the banned-author post example
is part of the theorem itself. -/
theorem search_excludes_banned_users_witness :
    alice ∈ (search dbAlice "ali" "users" 10 alice).1 ∧ alice.is_banned = false :=
  ⟨by decide, search_excludes_banned_users.1 dbAlice "ali" "users" 10 alice alice (by decide)⟩

/-! ### C7: effects of approving and rejecting a pending request -/

/-- C7: approving a pending verification request succeeds, sets its status
to `approved` recording reviewer and review timestamp, and flips the
requesting user's verified flag to true (all other user fields intact);
rejecting symmetrically stamps the request `rejected` with reviewer and
timestamp but leaves the users collection entirely unchanged. -/
theorem verification_review_effects (db : DB) (rid : String)
    (admin_user : UserR) (now : Int) (req : VerifReqR) (u : UserR)
    (hreq : db.verification_requests.find? (fun r => r.id == rid) = some req)
    (hpend : req.status = "pending")
    (huser : db.users.find? (fun v => v.id == req.user_id) = some u) :
    (approve_verification db rid admin_user now).1 = .ok () ∧
    (approve_verification db rid admin_user now).2.verification_requests.find?
        (fun r => r.id == rid) =
      some { req with
              status := "approved"
              reviewed_by := some admin_user.id
              reviewed_at := some now } ∧
    (approve_verification db rid admin_user now).2.users.find?
        (fun v => v.id == req.user_id) = some { u with is_verified := true } ∧
    (reject_verification db rid admin_user now).1 = .ok () ∧
    (reject_verification db rid admin_user now).2.verification_requests.find?
        (fun r => r.id == rid) =
      some { req with
              status := "rejected"
              reviewed_by := some admin_user.id
              reviewed_at := some now } ∧
    (reject_verification db rid admin_user now).2.users = db.users := by
  have hif : (!(req.status == "pending")) = false := by simp [hpend]
  unfold approve_verification reject_verification
  simp only [hreq, hif, Bool.false_eq_true, if_false]
  refine ⟨trivial, ?_, ?_, trivial, ?_, trivial⟩
  · show (updateFirst (fun r : VerifReqR => r.id == rid) _ db.verification_requests).find? _ = _
    rw [find?_updateFirst]
    · rw [hreq]
      rfl
    · exact fun x hx => hx
  · show (updateFirst (fun v : UserR => v.id == req.user_id) _ db.users).find? _ = _
    rw [find?_updateFirst]
    · rw [huser]
      rfl
    · exact fun x hx => hx
  · show (updateFirst (fun r : VerifReqR => r.id == rid) _ db.verification_requests).find? _ = _
    rw [find?_updateFirst]
    · rw [hreq]
      rfl
    · exact fun x hx => hx

/-- Witness for C7: approving the concrete pending request `reqPending`
verifies `alice`; rejecting it leaves the users list untouched. -/
theorem verification_review_effects_witness :
    reqPending.status = "pending" ∧
    (approve_verification dbVerif "r1" adaAdmin 7).2.users.find?
        (fun v => v.id == reqPending.user_id) = some { alice with is_verified := true } ∧
    (reject_verification dbVerif "r1" adaAdmin 7).2.users = dbVerif.users := by
  have h := verification_review_effects dbVerif "r1" adaAdmin 7 reqPending alice
    (by decide) rfl (by decide)
  exact ⟨rfl, h.2.2.1, h.2.2.2.2.2⟩

/-! ### C5: trending posts -/

/-- C5: the trending feed contains only posts of the trailing 24-hour
window; it is ordered by (likes desc, comments desc, created_at desc); it
holds at most `limit` entries; when at most `limit` posts are in the
window it is exactly the in-window posts (reordered); and on the spec's
concrete [5,5,3]-likes / [2,1,9]-comments example the order is
(5 likes, 2 comments), (5 likes, 1 comment), (3 likes, 9 comments). -/
theorem trending_window_order :
    (∀ (db : DB) (limit : Nat) (now : Int) (cu : UserR) (pr : PostR × Bool),
        pr ∈ get_trending_posts db limit now cu → now - 86400 ≤ pr.1.created_at) ∧
    (∀ (db : DB) (limit : Nat) (now : Int) (cu : UserR),
        ((get_trending_posts db limit now cu).map Prod.fst).Pairwise TrendBefore) ∧
    (∀ (db : DB) (limit : Nat) (now : Int) (cu : UserR),
        (get_trending_posts db limit now cu).length ≤ limit) ∧
    (∀ (db : DB) (limit : Nat) (now : Int) (cu : UserR),
        (db.posts.filter (fun p => decide (now - 86400 ≤ p.created_at))).length ≤ limit →
        ((get_trending_posts db limit now cu).map Prod.fst).Perm
          (db.posts.filter (fun p => decide (now - 86400 ≤ p.created_at)))) ∧
    get_trending_posts dbTrend 10 100000 alice =
      [(trendA, false), (trendB, false), (trendC, false)] := by
  refine ⟨?_, ?_, ?_, ?_, by decide⟩
  · intro db limit now cu pr hpr
    have h1 : pr.1 ∈ (sortByLE trendLE
        (db.posts.filter (fun p => decide (now - 86400 ≤ p.created_at)))).take limit :=
      fst_mem_of_mem_markLiked hpr
    have h2 := List.mem_of_mem_take h1
    have h3 := (List.mem_filter.mp ((sortByLE_perm _ _).mem_iff.mp h2)).2
    exact of_decide_eq_true h3
  · intro db limit now cu
    rw [get_trending_posts, markLiked_map_fst]
    have hs := pairwise_sortByLE trendLE_total trendLE_trans
      (db.posts.filter (fun p => decide (now - 86400 ≤ p.created_at)))
    have ht := hs.sublist (List.take_sublist limit _)
    exact ht.imp (fun hab => of_decide_eq_true hab)
  · intro db limit now cu
    rw [get_trending_posts, length_markLiked, List.length_take]
    exact Nat.min_le_left _ _
  · intro db limit now cu hlen
    rw [get_trending_posts, markLiked_map_fst]
    have hslen : (sortByLE trendLE
        (db.posts.filter (fun p => decide (now - 86400 ≤ p.created_at)))).length ≤ limit := by
      rw [(sortByLE_perm _ _).length_eq]
      exact hlen
    rw [List.take_of_length_le hslen]
    exact sortByLE_perm _ _

/-- Witness for C5: the theorem instantiated at the concrete three-post
state: every returned post is inside the window. -/
theorem trending_window_order_witness :
    (trendA, false) ∈ get_trending_posts dbTrend 10 100000 alice ∧
    (100000 : Int) - 86400 ≤ trendA.created_at :=
  ⟨by decide, trending_window_order.1 dbTrend 10 100000 alice (trendA, false) (by decide)⟩

/-! ### C4 (corrected): cascade delete -/

/-- C4 counterexample: the claim says that after deleting post P a fetch of
P's comments returns the empty list; in the code `get_post_comments` first
checks post existence, so after `delete_post_admin` it answers 404
"Post not found" — an error, not the empty list. -/
theorem comments_fetch_after_delete_cex :
    (delete_post_admin dbAlice "pa").1 = .ok () ∧
    get_post_comments (delete_post_admin dbAlice "pa").2 "pa" 50 0 =
      .error ⟨404, "Post not found"⟩ ∧
    get_post_comments (delete_post_admin dbAlice "pa").2 "pa" 50 0 ≠ .ok [] := by
  decide

/-- C4 (amended): deleting an existing post removes it together with every
comment and like referencing it and decrements the author's post counter by
exactly 1; the counter decrement is applied to an intermediate state in
which the dependent deletions have already happened and the users
collection is still untouched; a subsequent fetch of the post's comments
fails with NotFound (the post no longer exists) — and in particular no
comment referencing it remains. -/
theorem cascade_delete_amended (db : DB) (pid : String) (post : PostR) (u : UserR)
    (hfind : db.posts.find? (fun p => p.id == pid) = some post)
    (hnd : (db.posts.map (fun p => p.id)).Nodup)
    (huser : db.users.find? (fun v => v.id == post.author_id) = some u)
    (limit skip : Nat) :
    (delete_post_admin db pid).1 = .ok () ∧
    (∃ dbMid,
      (delete_post_admin db pid).2 = deletePostStepCounter post.author_id dbMid ∧
      dbMid.users = db.users ∧
      (∀ q ∈ dbMid.posts, (q.id == pid) = false) ∧
      (∀ c ∈ dbMid.comments, (c.post_id == pid) = false) ∧
      (∀ l ∈ dbMid.likes, (l.post_id == pid) = false)) ∧
    (delete_post_admin db pid).2.users.find? (fun v => v.id == post.author_id) =
      some { u with posts_count := u.posts_count - 1 } ∧
    (∀ q ∈ (delete_post_admin db pid).2.posts, (q.id == pid) = false) ∧
    (∀ c ∈ (delete_post_admin db pid).2.comments, (c.post_id == pid) = false) ∧
    (∀ l ∈ (delete_post_admin db pid).2.likes, (l.post_id == pid) = false) ∧
    get_post_comments (delete_post_admin db pid).2 pid limit skip =
      .error ⟨404, "Post not found"⟩ := by
  have hpostmem : post ∈ db.posts := List.mem_of_find?_eq_some hfind
  have hpid := List.find?_some hfind
  have hposts : ∀ q ∈ db.posts.eraseP (fun p => p.id == pid), (q.id == pid) = false :=
    eraseP_key_all_ne hnd hpostmem hpid
  have hdel : delete_post_admin db pid =
      (.ok (), deletePostStepCounter post.author_id
        (deletePostStepLikes pid (deletePostStepComments pid (deletePostStepPosts pid db)))) := by
    unfold delete_post_admin
    rw [hfind]
  refine ⟨by rw [hdel],
    ⟨deletePostStepLikes pid (deletePostStepComments pid (deletePostStepPosts pid db)),
      by rw [hdel], rfl, ?_, ?_, ?_⟩, ?_, ?_, ?_, ?_, ?_⟩
  · exact hposts
  · intro c hc
    have := (List.mem_filter.mp hc).2
    simpa using this
  · intro l hl
    have := (List.mem_filter.mp hl).2
    simpa using this
  · rw [hdel]
    show (updateFirst (fun v : UserR => v.id == post.author_id) _ db.users).find? _ = _
    rw [find?_updateFirst]
    · rw [huser]
      rfl
    · exact fun x hx => hx
  · rw [hdel]
    exact hposts
  · rw [hdel]
    intro c hc
    have := (List.mem_filter.mp hc).2
    simpa using this
  · rw [hdel]
    intro l hl
    have := (List.mem_filter.mp hl).2
    simpa using this
  · rw [hdel]
    unfold get_post_comments
    have : (deletePostStepCounter post.author_id
        (deletePostStepLikes pid (deletePostStepComments pid
          (deletePostStepPosts pid db)))).posts.find? (fun p => p.id == pid) = none := by
      rw [List.find?_eq_none]
      intro q hq
      have := hposts q hq
      simp [this]
    rw [this]

/-- Witness for the amended C4 at the concrete one-post state: the author's
counter drops from 1 to 0 and the comments fetch answers 404. -/
theorem cascade_delete_amended_witness :
    (delete_post_admin dbAlice "pa").1 = .ok () ∧
    (delete_post_admin dbAlice "pa").2.users.find? (fun v => v.id == "ua") =
      some { alice with posts_count := 0 } ∧
    get_post_comments (delete_post_admin dbAlice "pa").2 "pa" 50 0 =
      .error ⟨404, "Post not found"⟩ := by
  have h := cascade_delete_amended dbAlice "pa" alicePost alice
    (by decide) (by decide) (by decide) 50 0
  exact ⟨h.1, h.2.2.1, h.2.2.2.2.2.2⟩

/-! ### C1: alternation and restoration of the like toggle -/

/-- One toggle on a present post flips the reported and the stored liked
state, preserves like-id uniqueness, at-most-one-pair and post presence,
and changes the posts list by exactly one counter update (down when the
pair was liked, up when it was not). -/
theorem toggle_step (db : DB) (post_id : String) (cu : UserR) (lid : String) (t : Int)
    (hpost : (db.posts.find? (fun p => p.id == post_id)).isSome = true)
    (hnd : (db.likes.map (fun l => l.id)).Nodup)
    (hpair : pairCount db post_id cu ≤ 1)
    (hfresh : lid ∉ db.likes.map (fun l => l.id)) :
    (toggle_like_post db post_id cu lid t).1 = .ok (!(likedIn db post_id cu)) ∧
    likedIn (toggle_like_post db post_id cu lid t).2 post_id cu =
      !(likedIn db post_id cu) ∧
    ((toggle_like_post db post_id cu lid t).2.likes.map (fun l => l.id)).Nodup ∧
    pairCount (toggle_like_post db post_id cu lid t).2 post_id cu ≤ 1 ∧
    ((toggle_like_post db post_id cu lid t).2.posts.find?
      (fun p => p.id == post_id)).isSome = true ∧
    (toggle_like_post db post_id cu lid t).2.posts =
      (if likedIn db post_id cu then
        updateFirst (fun p => p.id == post_id)
          (fun p => { p with likes_count := p.likes_count - 1 }) db.posts
      else
        updateFirst (fun p => p.id == post_id)
          (fun p => { p with likes_count := p.likes_count + 1 }) db.posts) := by
  obtain ⟨p0, hp0⟩ := Option.isSome_iff_exists.mp hpost
  rcases hL : db.likes.find? (fun l => l.user_id == cu.id && l.post_id == post_id)
    with _ | L
  · -- not yet liked: a fresh like is appended
    have hb : likedIn db post_id cu = false := by simp [likedIn, hL]
    have htog : toggle_like_post db post_id cu lid t =
        (.ok true,
          { db with
            likes := db.likes ++
              [{ id := lid, user_id := cu.id, post_id := post_id, created_at := t }]
            posts := updateFirst (fun p => p.id == post_id)
              (fun p => { p with likes_count := p.likes_count + 1 }) db.posts }) := by
      unfold toggle_like_post
      simp only [hp0, hL]
    have hnone := List.find?_eq_none.mp hL
    refine ⟨by rw [htog, hb]; rfl, ?_, ?_, ?_, ?_, ?_⟩
    · rw [htog, hb]
      simp [likedIn, List.find?_append, hL]
    · rw [htog]
      simp only [List.map_append, List.map_cons, List.map_nil]
      rw [List.nodup_append]
      refine ⟨hnd, List.nodup_singleton _, ?_⟩
      intro x hx hx2
      simp only [List.mem_singleton] at hx2
      subst hx2
      exact hfresh hx
    · rw [htog]
      unfold pairCount
      simp only [List.filter_append]
      rw [List.filter_eq_nil_iff.mpr hnone]
      simp
    · rw [htog]
      show ((updateFirst (fun p : PostR => p.id == post_id) _ db.posts).find? _).isSome = true
      rw [find?_updateFirst]
      · rw [hp0]
        rfl
      · exact fun x hx => hx
    · rw [htog, hb]
      simp
  · -- already liked: the stored like is erased
    have hb : likedIn db post_id cu = true := by simp [likedIn, hL]
    have htog : toggle_like_post db post_id cu lid t =
        (.ok false,
          { db with
            likes := db.likes.eraseP (fun l => l.id == L.id)
            posts := updateFirst (fun p => p.id == post_id)
              (fun p => { p with likes_count := p.likes_count - 1 }) db.posts }) := by
      unfold toggle_like_post
      simp only [hp0, hL]
    have hLmem : L ∈ db.likes := List.mem_of_find?_eq_some hL
    have hLpr := List.find?_some hL
    have hLid : (fun z : LikeR => z.id == L.id) L = true := by simp
    obtain ⟨a, l1, l2, h1, h2, h3, h4⟩ :=
      @List.exists_of_eraseP _ (fun z => z.id == L.id) db.likes L hLmem hLid
    have haL : a = L := by
      have ha_mem : a ∈ db.likes := by
        rw [h3]
        exact List.mem_append_right _ (List.mem_cons_self _ _)
      exact List.inj_on_of_nodup_map hnd ha_mem hLmem (beq_iff_eq.mp h2)
    subst haL
    have hflen : ((l1 ++ a :: l2).filter
        (fun l => l.user_id == cu.id && l.post_id == post_id)).length ≤ 1 := by
      rw [← h3]
      exact hpair
    have hpra : (fun l : LikeR => l.user_id == cu.id && l.post_id == post_id) a = true :=
      hLpr
    rw [List.filter_append, List.filter_cons, if_pos hpra, List.length_append,
      List.length_cons] at hflen
    have hlen1 : (l1.filter (fun l => l.user_id == cu.id && l.post_id == post_id)).length = 0 := by
      omega
    have hlen2 : (l2.filter (fun l => l.user_id == cu.id && l.post_id == post_id)).length = 0 := by
      omega
    have hl1 := List.filter_eq_nil_iff.mp (List.length_eq_zero.mp hlen1)
    have hl2 := List.filter_eq_nil_iff.mp (List.length_eq_zero.mp hlen2)
    have hnoneafter : (l1 ++ l2).find?
        (fun l => l.user_id == cu.id && l.post_id == post_id) = none := by
      rw [List.find?_eq_none]
      intro x hx
      rcases List.mem_append.mp hx with h | h
      · exact hl1 x h
      · exact hl2 x h
    refine ⟨by rw [htog, hb]; rfl, ?_, ?_, ?_, ?_, ?_⟩
    · rw [htog, hb]
      simp [likedIn, h4, hnoneafter]
    · rw [htog]
      exact ((List.eraseP_sublist db.likes).map (fun l => l.id)).nodup hnd
    · rw [htog]
      unfold pairCount
      simp only [h4]
      rw [List.filter_append, List.filter_eq_nil_iff.mpr hl1, List.filter_eq_nil_iff.mpr hl2]
      simp
    · rw [htog]
      show ((updateFirst (fun p : PostR => p.id == post_id) _ db.posts).find? _).isSome = true
      rw [find?_updateFirst]
      · rw [hp0]
        rfl
      · exact fun x hx => hx
    · rw [htog, hb]
      simp

theorem updateFirst_inc_dec (l : List PostR) (post_id : String) :
    updateFirst (fun p => p.id == post_id)
      (fun p => { p with likes_count := p.likes_count + 1 })
      (updateFirst (fun p => p.id == post_id)
        (fun p => { p with likes_count := p.likes_count - 1 }) l) = l := by
  rw [updateFirst_updateFirst]
  · apply updateFirst_eq_self
    intro x hx
    show ({ x with likes_count := x.likes_count - 1 + 1 } : PostR) = x
    rw [show x.likes_count - 1 + 1 = x.likes_count by omega]
  · exact fun x => rfl

theorem updateFirst_dec_inc (l : List PostR) (post_id : String) :
    updateFirst (fun p => p.id == post_id)
      (fun p => { p with likes_count := p.likes_count - 1 })
      (updateFirst (fun p => p.id == post_id)
        (fun p => { p with likes_count := p.likes_count + 1 }) l) = l := by
  rw [updateFirst_updateFirst]
  · apply updateFirst_eq_self
    intro x hx
    show ({ x with likes_count := x.likes_count + 1 - 1 } : PostR) = x
    rw [show x.likes_count + 1 - 1 = x.likes_count by omega]
  · exact fun x => rfl

/-- A pair of consecutive toggles restores the posts list and the liked
state, and preserves the side invariants. -/
theorem toggle_twice (db : DB) (post_id : String) (cu : UserR)
    (lid1 lid2 : String) (t1 t2 : Int)
    (hpost : (db.posts.find? (fun p => p.id == post_id)).isSome = true)
    (hnd : (db.likes.map (fun l => l.id)).Nodup)
    (hpair : pairCount db post_id cu ≤ 1)
    (hf1 : lid1 ∉ db.likes.map (fun l => l.id))
    (hf2 : lid2 ∉ (toggle_like_post db post_id cu lid1 t1).2.likes.map (fun l => l.id)) :
    (toggle_like_post (toggle_like_post db post_id cu lid1 t1).2
        post_id cu lid2 t2).2.posts = db.posts ∧
    likedIn (toggle_like_post (toggle_like_post db post_id cu lid1 t1).2
        post_id cu lid2 t2).2 post_id cu = likedIn db post_id cu ∧
    ((toggle_like_post (toggle_like_post db post_id cu lid1 t1).2
        post_id cu lid2 t2).2.likes.map (fun l => l.id)).Nodup ∧
    pairCount (toggle_like_post (toggle_like_post db post_id cu lid1 t1).2
        post_id cu lid2 t2).2 post_id cu ≤ 1 ∧
    ((toggle_like_post (toggle_like_post db post_id cu lid1 t1).2
        post_id cu lid2 t2).2.posts.find? (fun p => p.id == post_id)).isSome = true := by
  obtain ⟨r1, li1, nd1, pc1, ps1, po1⟩ :=
    toggle_step db post_id cu lid1 t1 hpost hnd hpair hf1
  obtain ⟨r2, li2, nd2, pc2, ps2, po2⟩ :=
    toggle_step (toggle_like_post db post_id cu lid1 t1).2 post_id cu lid2 t2
      ps1 nd1 pc1 hf2
  refine ⟨?_, ?_, nd2, pc2, ps2⟩
  · rw [po2, li1]
    cases hb : likedIn db post_id cu
    · rw [hb] at po1
      simp only [Bool.not_false, if_true, Bool.false_eq_true, if_false] at po1 ⊢
      rw [po1]
      exact updateFirst_dec_inc db.posts post_id
    · rw [hb] at po1
      simp only [Bool.not_true, if_true, Bool.false_eq_true, if_false] at po1 ⊢
      rw [po1]
      exact updateFirst_inc_dec db.posts post_id
  · rw [li2, li1, Bool.not_not]

/-- The result sequence of iterated toggles alternates, starting with the
negation of the initial liked state. -/
theorem toggleN_alternation (post_id : String) (cu : UserR) :
    ∀ (ids : List (String × Int)) (db : DB),
    (db.posts.find? (fun p => p.id == post_id)).isSome = true →
    (db.likes.map (fun l => l.id)).Nodup →
    pairCount db post_id cu ≤ 1 →
    toggleFresh db post_id cu ids = true →
    (toggleN db post_id cu ids).1 = altList (likedIn db post_id cu) ids.length := by
  intro ids
  induction ids with
  | nil => intro db _ _ _ _; rfl
  | cons a rest ih =>
    intro db hpost hnd hpair hfr
    simp only [toggleFresh, Bool.and_eq_true] at hfr
    obtain ⟨hf1, hfr2⟩ := hfr
    have hf1m : a.1 ∉ db.likes.map (fun l => l.id) := by simpa using hf1
    obtain ⟨r1, li1, nd1, pc1, ps1, po1⟩ :=
      toggle_step db post_id cu a.1 a.2 hpost hnd hpair hf1m
    show (toggle_like_post db post_id cu a.1 a.2).1 ::
      (toggleN (toggle_like_post db post_id cu a.1 a.2).2 post_id cu rest).1 = _
    rw [r1, List.length_cons]
    show _ = Except.ok (!likedIn db post_id cu) ::
      altList (!likedIn db post_id cu) rest.length
    rw [ih _ ps1 nd1 pc1 hfr2, li1]

/-- After an even number of toggles the posts list (hence every like
counter) and the liked state are restored. -/
theorem toggleN_restore (post_id : String) (cu : UserR) :
    ∀ (N : Nat) (ids : List (String × Int)) (db : DB),
    ids.length = 2 * N →
    (db.posts.find? (fun p => p.id == post_id)).isSome = true →
    (db.likes.map (fun l => l.id)).Nodup →
    pairCount db post_id cu ≤ 1 →
    toggleFresh db post_id cu ids = true →
    (toggleN db post_id cu ids).2.posts = db.posts ∧
    likedIn (toggleN db post_id cu ids).2 post_id cu = likedIn db post_id cu := by
  intro N
  induction N with
  | zero =>
    intro ids db hlen _ _ _ _
    have : ids = [] := List.length_eq_zero.mp (by omega)
    subst this
    exact ⟨rfl, rfl⟩
  | succ n ih =>
    intro ids db hlen hpost hnd hpair hfr
    rcases ids with _ | ⟨a, _ | ⟨b, rest⟩⟩
    · exfalso
      simp only [List.length_nil] at hlen
      omega
    · exfalso
      simp only [List.length_cons, List.length_nil] at hlen
      omega
    · simp only [toggleFresh, Bool.and_eq_true] at hfr
      obtain ⟨hf1, hf2, hfr3⟩ := hfr
      have hf1m : a.1 ∉ db.likes.map (fun l => l.id) := by simpa using hf1
      have hf2m : b.1 ∉
          (toggle_like_post db post_id cu a.1 a.2).2.likes.map (fun l => l.id) := by
        simpa using hf2
      obtain ⟨hps, hlk, hnd2, hpc2, hpost2⟩ :=
        toggle_twice db post_id cu a.1 b.1 a.2 b.2 hpost hnd hpair hf1m hf2m
      have hrest : rest.length = 2 * n := by
        simp only [List.length_cons] at hlen
        omega
      have hih := ih rest
        (toggle_like_post (toggle_like_post db post_id cu a.1 a.2).2 post_id cu b.1 b.2).2
        hrest hpost2 hnd2 hpc2 hfr3
      show ((toggleN (toggle_like_post (toggle_like_post db post_id cu a.1 a.2).2
          post_id cu b.1 b.2).2 post_id cu rest).2.posts = db.posts) ∧ _
      refine ⟨?_, ?_⟩
      · rw [hih.1, hps]
      · show likedIn (toggleN (toggle_like_post (toggle_like_post db post_id cu a.1 a.2).2
            post_id cu b.1 b.2).2 post_id cu rest).2 post_id cu = _
        rw [hih.2, hlk]

/-- C1: for a user and an existing post (with the data model's invariants:
unique like ids, at most one like for the pair, fresh uuids along the
trace), iterated `toggle_like_post` calls report strictly alternating
`liked` flags starting from the negation of the current state, and after
any even number 2N of toggles the posts collection — in particular the
post's like counter — and the existence of the like relation for the pair
are exactly restored. -/
theorem toggle_like_alternation_and_restore (db : DB) (post_id : String)
    (cu : UserR) (ids : List (String × Int)) (N : Nat)
    (hpost : (db.posts.find? (fun p => p.id == post_id)).isSome = true)
    (hnd : (db.likes.map (fun l => l.id)).Nodup)
    (hpair : pairCount db post_id cu ≤ 1)
    (hfresh : toggleFresh db post_id cu ids = true) :
    (toggleN db post_id cu ids).1 = altList (likedIn db post_id cu) ids.length ∧
    (ids.length = 2 * N →
      (toggleN db post_id cu ids).2.posts = db.posts ∧
      likedIn (toggleN db post_id cu ids).2 post_id cu = likedIn db post_id cu) :=
  ⟨toggleN_alternation post_id cu ids db hpost hnd hpair hfresh,
    fun hlen => toggleN_restore post_id cu N ids db hlen hpost hnd hpair hfresh⟩

/-- Witness for C1: two toggles of `alice` on the concrete post `pa`
report `liked=true` then `liked=false` and restore the posts collection. -/
theorem toggle_like_alternation_and_restore_witness :
    (dbAlice.posts.find? (fun p => p.id == "pa")).isSome = true ∧
    (dbAlice.likes.map (fun l => l.id)).Nodup ∧
    pairCount dbAlice "pa" alice ≤ 1 ∧
    toggleFresh dbAlice "pa" alice [("x1", 20), ("x2", 21)] = true ∧
    (toggleN dbAlice "pa" alice [("x1", 20), ("x2", 21)]).1 =
      altList (likedIn dbAlice "pa" alice) 2 ∧
    (toggleN dbAlice "pa" alice [("x1", 20), ("x2", 21)]).2.posts = dbAlice.posts := by
  have h := toggle_like_alternation_and_restore dbAlice "pa" alice
    [("x1", 20), ("x2", 21)] 1 (by decide) (by decide) (by decide) (by decide)
  exact ⟨by decide, by decide, by decide, by decide, h.1, (h.2 rfl).1⟩

/-! ### C2: counter consistency over all reachable states -/

theorem filter_append_single_pos (p : α → Bool) (x : α) (l : List α) (hx : p x = true) :
    (l ++ [x]).filter p = l.filter p ++ [x] := by
  rw [List.filter_append]
  simp [List.filter_cons, hx]

theorem filter_append_single_neg (p : α → Bool) (x : α) (l : List α) (hx : p x = false) :
    (l ++ [x]).filter p = l.filter p := by
  rw [List.filter_append]
  simp [List.filter_cons, hx]

theorem length_filter_middle (q : α → Bool) (x : α) (l1 l2 : List α) (hx : q x = true) :
    ((l1 ++ x :: l2).filter q).length = ((l1 ++ l2).filter q).length + 1 := by
  simp only [List.filter_append, List.filter_cons, hx, if_pos, List.length_append,
    List.length_cons]
  omega

theorem filter_middle_neg (q : α → Bool) (x : α) (l1 l2 : List α) (hx : q x = false) :
    ((l1 ++ x :: l2).filter q) = (l1 ++ l2).filter q := by
  simp only [List.filter_append, List.filter_cons, hx, Bool.false_eq_true, if_false]

/-- `toggle_like_post` preserves the consistency invariant (with a fresh
like id). -/
theorem inv_toggle (db : DB) (cu : UserR) (pid lid : String) (t : Int)
    (hinv : Inv db) (hfresh : lid ∉ db.likes.map (fun l => l.id)) :
    Inv (toggle_like_post db pid cu lid t).2 := by
  obtain ⟨hc, hlr, hcr, hpn, hln⟩ := hinv
  rcases hp : db.posts.find? (fun p => p.id == pid) with _ | p0
  · have hsame : (toggle_like_post db pid cu lid t).2 = db := by
      unfold toggle_like_post
      rw [hp]
    rw [hsame]
    exact ⟨hc, hlr, hcr, hpn, hln⟩
  · have hpidmem : pid ∈ db.posts.map (fun p => p.id) := by
      have hp1 := List.find?_some hp
      have hpeq : p0.id = pid := beq_iff_eq.mp hp1
      exact hpeq ▸ List.mem_map_of_mem _ (List.mem_of_find?_eq_some hp)
    rcases hL : db.likes.find? (fun l => l.user_id == cu.id && l.post_id == pid) with _ | L
    · -- a fresh like is inserted, the counter incremented
      have htog : (toggle_like_post db pid cu lid t).2 =
          { db with
            likes := db.likes ++
              [{ id := lid, user_id := cu.id, post_id := pid, created_at := t }]
            posts := updateFirst (fun p => p.id == pid)
              (fun p => { p with likes_count := p.likes_count + 1 }) db.posts } := by
        unfold toggle_like_post
        simp only [hp, hL]
      rw [htog]
      have hids : (updateFirst (fun p : PostR => p.id == pid)
          (fun p => { p with likes_count := p.likes_count + 1 }) db.posts).map
            (fun p => p.id) = db.posts.map (fun p => p.id) := by
        apply updateFirst_map_of_preserve
        intro x
        rfl
      refine ⟨?_, ?_, ?_, ?_, ?_⟩
      · intro p hpmem
        have hpmem2 : p ∈ updateFirst (fun p : PostR => p.id == pid)
            (fun p => { p with likes_count := p.likes_count + 1 }) db.posts := hpmem
        rcases mem_updateFirst_key hpn hpmem2 with ⟨hin, hne⟩ | ⟨q, hq, hqid, rfl⟩
        · obtain ⟨hlc, hcc⟩ := hc p hin
          have h0 : (fun l : LikeR => l.post_id == p.id)
              ({ id := lid, user_id := cu.id, post_id := pid, created_at := t } : LikeR)
              = false := by
            have hne2 : p.id ≠ pid := by simpa using hne
            simpa using (Ne.symm hne2)
          constructor
          · show p.likes_count = (((db.likes ++ [({ id := lid, user_id := cu.id, post_id := pid, created_at := t } : LikeR)]).filter (fun l => l.post_id == p.id)).length : Int)
            rw [filter_append_single_neg (fun l : LikeR => l.post_id == p.id) ({ id := lid, user_id := cu.id, post_id := pid, created_at := t } : LikeR) db.likes h0]
            exact hlc
          · exact hcc
        · obtain ⟨hlc, hcc⟩ := hc q hq
          have h1 : (fun l : LikeR => l.post_id == q.id)
              ({ id := lid, user_id := cu.id, post_id := pid, created_at := t } : LikeR)
              = true := by
            have hq2 : q.id = pid := by simpa using hqid
            simpa using hq2.symm
          constructor
          · show q.likes_count + 1 = (((db.likes ++ [({ id := lid, user_id := cu.id, post_id := pid, created_at := t } : LikeR)]).filter (fun l => l.post_id == q.id)).length : Int)
            rw [filter_append_single_pos (fun l : LikeR => l.post_id == q.id) ({ id := lid, user_id := cu.id, post_id := pid, created_at := t } : LikeR) db.likes h1, List.length_append, hlc]
            push_cast
            simp
          · show q.comments_count =
              ((db.comments.filter (fun c => c.post_id == q.id)).length : Int)
            exact hcc
      · intro l hl
        rw [hids]
        rcases List.mem_append.mp hl with h | h
        · exact hlr l h
        · simp only [List.mem_singleton] at h
          subst h
          exact hpidmem
      · intro c hcmem
        rw [hids]
        exact hcr c hcmem
      · rw [hids]
        exact hpn
      · simp only [List.map_append, List.map_cons, List.map_nil]
        rw [List.nodup_append]
        refine ⟨hln, List.nodup_singleton _, ?_⟩
        intro x hx hx2
        simp only [List.mem_singleton] at hx2
        subst hx2
        exact hfresh hx
    · -- the stored like is erased, the counter decremented
      have htog : (toggle_like_post db pid cu lid t).2 =
          { db with
            likes := db.likes.eraseP (fun l => l.id == L.id)
            posts := updateFirst (fun p => p.id == pid)
              (fun p => { p with likes_count := p.likes_count - 1 }) db.posts } := by
        unfold toggle_like_post
        simp only [hp, hL]
      rw [htog]
      have hids : (updateFirst (fun p : PostR => p.id == pid)
          (fun p => { p with likes_count := p.likes_count - 1 }) db.posts).map
            (fun p => p.id) = db.posts.map (fun p => p.id) := by
        apply updateFirst_map_of_preserve
        intro x
        rfl
      have hLmem : L ∈ db.likes := List.mem_of_find?_eq_some hL
      have hLpr := List.find?_some hL
      have hLpid : L.post_id = pid := by
        have := hLpr
        simp only [Bool.and_eq_true, beq_iff_eq] at this
        exact this.2
      have hLid : (fun z : LikeR => z.id == L.id) L = true := by simp
      obtain ⟨a, l1, l2, h1, h2, h3, h4⟩ :=
        @List.exists_of_eraseP _ (fun z => z.id == L.id) db.likes L hLmem hLid
      have haL : a = L := by
        have ha_mem : a ∈ db.likes := by
          rw [h3]
          exact List.mem_append_right _ (List.mem_cons_self _ _)
        exact List.inj_on_of_nodup_map hln ha_mem hLmem (beq_iff_eq.mp h2)
      rw [haL] at h3
      refine ⟨?_, ?_, ?_, ?_, ?_⟩
      · intro p hpmem
        have hpmem2 : p ∈ updateFirst (fun p : PostR => p.id == pid)
            (fun p => { p with likes_count := p.likes_count - 1 }) db.posts := hpmem
        rcases mem_updateFirst_key hpn hpmem2 with ⟨hin, hne⟩ | ⟨q, hq, hqid, rfl⟩
        · obtain ⟨hlc, hcc⟩ := hc p hin
          have h0 : (fun l : LikeR => l.post_id == p.id) L = false := by
            have hne2 : p.id ≠ pid := by simpa using hne
            show (L.post_id == p.id) = false
            rw [hLpid]
            simpa using (Ne.symm hne2)
          constructor
          · show p.likes_count =
              (((db.likes.eraseP (fun l => l.id == L.id)).filter
                (fun l => l.post_id == p.id)).length : Int)
            rw [h4, ← filter_middle_neg (fun l : LikeR => l.post_id == p.id) L l1 l2 h0, ← h3]
            exact hlc
          · exact hcc
        · obtain ⟨hlc, hcc⟩ := hc q hq
          have hqpid : q.id = pid := by simpa using hqid
          have h1 : (fun l : LikeR => l.post_id == q.id) L = true := by
            show (L.post_id == q.id) = true
            rw [hLpid, hqpid]
            simp
          constructor
          · show q.likes_count - 1 =
              (((db.likes.eraseP (fun l => l.id == L.id)).filter
                (fun l => l.post_id == q.id)).length : Int)
            have hstep := length_filter_middle (fun l : LikeR => l.post_id == q.id) L l1 l2 h1
            rw [← h3] at hstep
            rw [h4, hlc, hstep]
            push_cast
            omega
          · show q.comments_count =
              ((db.comments.filter (fun c => c.post_id == q.id)).length : Int)
            exact hcc
      · intro l hl
        rw [hids, h4] at *
        have hl2 : l ∈ db.likes := by
          rw [h3]
          rcases List.mem_append.mp hl with h | h
          · exact List.mem_append_left _ h
          · exact List.mem_append_right _ (List.mem_cons_of_mem _ h)
        exact hlr l hl2
      · intro c hcmem
        rw [hids]
        exact hcr c hcmem
      · rw [hids]
        exact hpn
      · rw [h4]
        have hsub : List.Sublist (l1 ++ l2) db.likes := by
          rw [← h4]
          exact List.eraseP_sublist _
        exact (hsub.map (fun l => l.id)).nodup hln

/-- `create_post` preserves the consistency invariant (with a fresh post
id). -/
theorem inv_create_post (db : DB) (cu : UserR) (content pid : String) (t : Int)
    (hinv : Inv db) (hfresh : pid ∉ db.posts.map (fun p => p.id)) :
    Inv (create_post db content cu pid t).2 := by
  obtain ⟨hc, hlr, hcr, hpn, hln⟩ := hinv
  by_cases hb : cu.is_banned
  · have hsame : (create_post db content cu pid t).2 = db := by
      unfold create_post
      simp [hb]
    rw [hsame]
    exact ⟨hc, hlr, hcr, hpn, hln⟩
  · have heq : (create_post db content cu pid t).2 =
        { db with
          posts := db.posts ++ [({ id := pid, content := content, author_id := cu.id, author_username := cu.username, author_display_name := cu.display_name, author_is_verified := cu.is_verified, created_at := t, likes_count := 0, comments_count := 0, reposts_count := 0 } : PostR)]
          users := updateFirst (fun v => v.id == cu.id)
            (fun v => { v with posts_count := v.posts_count + 1 }) db.users } := by
      unfold create_post
      simp [hb]
    rw [heq]
    have hlf : db.likes.filter (fun l => l.post_id == pid) = [] := by
      rw [List.filter_eq_nil_iff]
      intro x hx hxp
      have hxeq : x.post_id = pid := by simpa using hxp
      exact hfresh (hxeq ▸ hlr x hx)
    have hcf : db.comments.filter (fun c => c.post_id == pid) = [] := by
      rw [List.filter_eq_nil_iff]
      intro x hx hxp
      have hxeq : x.post_id = pid := by simpa using hxp
      exact hfresh (hxeq ▸ hcr x hx)
    refine ⟨?_, ?_, ?_, ?_, hln⟩
    · intro p hpmem
      have hp2 : p ∈ db.posts ++ [({ id := pid, content := content, author_id := cu.id, author_username := cu.username, author_display_name := cu.display_name, author_is_verified := cu.is_verified, created_at := t, likes_count := 0, comments_count := 0, reposts_count := 0 } : PostR)] := hpmem
      rcases List.mem_append.mp hp2 with hin | hnew
      · exact hc p hin
      · simp only [List.mem_singleton] at hnew
        subst hnew
        constructor
        · show (0 : Int) = ((db.likes.filter (fun l => l.post_id == pid)).length : Int)
          rw [hlf]
          rfl
        · show (0 : Int) = ((db.comments.filter (fun c => c.post_id == pid)).length : Int)
          rw [hcf]
          rfl
    · intro l hl
      show l.post_id ∈ (db.posts ++ [({ id := pid, content := content, author_id := cu.id, author_username := cu.username, author_display_name := cu.display_name, author_is_verified := cu.is_verified, created_at := t, likes_count := 0, comments_count := 0, reposts_count := 0 } : PostR)]).map (fun p => p.id)
      rw [List.map_append]
      exact List.mem_append_left _ (hlr l hl)
    · intro c hcmem
      show c.post_id ∈ (db.posts ++ [({ id := pid, content := content, author_id := cu.id, author_username := cu.username, author_display_name := cu.display_name, author_is_verified := cu.is_verified, created_at := t, likes_count := 0, comments_count := 0, reposts_count := 0 } : PostR)]).map (fun p => p.id)
      rw [List.map_append]
      exact List.mem_append_left _ (hcr c hcmem)
    · show ((db.posts ++ [({ id := pid, content := content, author_id := cu.id, author_username := cu.username, author_display_name := cu.display_name, author_is_verified := cu.is_verified, created_at := t, likes_count := 0, comments_count := 0, reposts_count := 0 } : PostR)]).map (fun p => p.id)).Nodup
      rw [List.map_append]
      rw [List.nodup_append]
      refine ⟨hpn, List.nodup_singleton _, ?_⟩
      intro x hx hx2
      simp only [List.map_cons, List.map_nil, List.mem_singleton] at hx2
      subst hx2
      exact hfresh hx

/-- `create_comment` preserves the consistency invariant. -/
theorem inv_create_comment (db : DB) (cu : UserR) (pid content cid : String)
    (t : Int) (hinv : Inv db) : Inv (create_comment db pid content cu cid t).2 := by
  obtain ⟨hc, hlr, hcr, hpn, hln⟩ := hinv
  by_cases hb : cu.is_banned
  · have hsame : (create_comment db pid content cu cid t).2 = db := by
      unfold create_comment
      simp [hb]
    rw [hsame]
    exact ⟨hc, hlr, hcr, hpn, hln⟩
  · rcases hp : db.posts.find? (fun p => p.id == pid) with _ | p0
    · have hsame : (create_comment db pid content cu cid t).2 = db := by
        unfold create_comment
        simp [hb, hp]
      rw [hsame]
      exact ⟨hc, hlr, hcr, hpn, hln⟩
    · have hpidmem : pid ∈ db.posts.map (fun p => p.id) := by
        have hp1 := List.find?_some hp
        have hpeq : p0.id = pid := beq_iff_eq.mp hp1
        exact hpeq ▸ List.mem_map_of_mem _ (List.mem_of_find?_eq_some hp)
      have heq : (create_comment db pid content cu cid t).2 =
          { db with
            comments := db.comments ++ [({ id := cid, content := content, post_id := pid, author_id := cu.id, author_username := cu.username, author_display_name := cu.display_name, author_is_verified := cu.is_verified, created_at := t, likes_count := 0 } : CommentR)]
            posts := updateFirst (fun p => p.id == pid)
              (fun p => { p with comments_count := p.comments_count + 1 }) db.posts } := by
        unfold create_comment
        simp [hb, hp]
      rw [heq]
      have hids : (updateFirst (fun p : PostR => p.id == pid)
          (fun p => { p with comments_count := p.comments_count + 1 }) db.posts).map
            (fun p => p.id) = db.posts.map (fun p => p.id) := by
        apply updateFirst_map_of_preserve
        intro x
        rfl
      refine ⟨?_, ?_, ?_, ?_, hln⟩
      · intro p hpmem
        have hpmem2 : p ∈ updateFirst (fun p : PostR => p.id == pid)
            (fun p => { p with comments_count := p.comments_count + 1 }) db.posts := hpmem
        rcases mem_updateFirst_key hpn hpmem2 with ⟨hin, hne⟩ | ⟨q, hq, hqid, rfl⟩
        · obtain ⟨hlc, hcc⟩ := hc p hin
          have h0 : (fun c : CommentR => c.post_id == p.id)
              ({ id := cid, content := content, post_id := pid, author_id := cu.id, author_username := cu.username, author_display_name := cu.display_name, author_is_verified := cu.is_verified, created_at := t, likes_count := 0 } : CommentR) = false := by
            have hne2 : p.id ≠ pid := by simpa using hne
            simpa using (Ne.symm hne2)
          constructor
          · exact hlc
          · show p.comments_count = (((db.comments ++ [({ id := cid, content := content, post_id := pid, author_id := cu.id, author_username := cu.username, author_display_name := cu.display_name, author_is_verified := cu.is_verified, created_at := t, likes_count := 0 } : CommentR)]).filter (fun c => c.post_id == p.id)).length : Int)
            rw [filter_append_single_neg (fun c : CommentR => c.post_id == p.id) ({ id := cid, content := content, post_id := pid, author_id := cu.id, author_username := cu.username, author_display_name := cu.display_name, author_is_verified := cu.is_verified, created_at := t, likes_count := 0 } : CommentR) db.comments h0]
            exact hcc
        · obtain ⟨hlc, hcc⟩ := hc q hq
          have h1 : (fun c : CommentR => c.post_id == q.id)
              ({ id := cid, content := content, post_id := pid, author_id := cu.id, author_username := cu.username, author_display_name := cu.display_name, author_is_verified := cu.is_verified, created_at := t, likes_count := 0 } : CommentR) = true := by
            have hq2 : q.id = pid := by simpa using hqid
            simpa using hq2.symm
          constructor
          · show q.likes_count = ((db.likes.filter (fun l => l.post_id == q.id)).length : Int)
            exact hlc
          · show q.comments_count + 1 = (((db.comments ++ [({ id := cid, content := content, post_id := pid, author_id := cu.id, author_username := cu.username, author_display_name := cu.display_name, author_is_verified := cu.is_verified, created_at := t, likes_count := 0 } : CommentR)]).filter (fun c => c.post_id == q.id)).length : Int)
            rw [filter_append_single_pos (fun c : CommentR => c.post_id == q.id) ({ id := cid, content := content, post_id := pid, author_id := cu.id, author_username := cu.username, author_display_name := cu.display_name, author_is_verified := cu.is_verified, created_at := t, likes_count := 0 } : CommentR) db.comments h1, List.length_append, hcc]
            push_cast
            simp
      · intro l hl
        rw [hids]
        exact hlr l hl
      · intro c hcmem
        rw [hids]
        have hc2 : c ∈ db.comments ++ [({ id := cid, content := content, post_id := pid, author_id := cu.id, author_username := cu.username, author_display_name := cu.display_name, author_is_verified := cu.is_verified, created_at := t, likes_count := 0 } : CommentR)] := hcmem
        rcases List.mem_append.mp hc2 with h | h
        · exact hcr c h
        · simp only [List.mem_singleton] at h
          subst h
          exact hpidmem
      · rw [hids]
        exact hpn

/-- `delete_post_admin` preserves the consistency invariant. -/
theorem inv_delete_post (db : DB) (pid : String) (hinv : Inv db) :
    Inv (delete_post_admin db pid).2 := by
  obtain ⟨hc, hlr, hcr, hpn, hln⟩ := hinv
  rcases hp : db.posts.find? (fun p => p.id == pid) with _ | post
  · have hsame : (delete_post_admin db pid).2 = db := by
      unfold delete_post_admin
      rw [hp]
    rw [hsame]
    exact ⟨hc, hlr, hcr, hpn, hln⟩
  · have hpostmem : post ∈ db.posts := List.mem_of_find?_eq_some hp
    have hpid := List.find?_some hp
    have hall : ∀ q ∈ db.posts.eraseP (fun p => p.id == pid), (q.id == pid) = false :=
      eraseP_key_all_ne hpn hpostmem hpid
    have heq : (delete_post_admin db pid).2 =
        deletePostStepCounter post.author_id
          (deletePostStepLikes pid (deletePostStepComments pid
            (deletePostStepPosts pid db))) := by
      unfold delete_post_admin
      rw [hp]
    rw [heq]
    refine ⟨?_, ?_, ?_, ?_, ?_⟩
    · intro p hpmem
      have hp2 : p ∈ db.posts.eraseP (fun p => p.id == pid) := hpmem
      have hne : (p.id == pid) = false := hall p hp2
      have hne2 : p.id ≠ pid := by simpa using hne
      obtain ⟨hlc, hcc⟩ := hc p (List.mem_of_mem_eraseP hp2)
      constructor
      · show p.likes_count = (((db.likes.filter (fun l => !(l.post_id == pid))).filter
          (fun l => l.post_id == p.id)).length : Int)
        rw [List.filter_filter]
        have hcong : ∀ x ∈ db.likes,
            ((x.post_id == p.id) && !(x.post_id == pid)) = (x.post_id == p.id) := by
          intro x hx
          by_cases hxp : (x.post_id == p.id) = true
          · have hxeq : x.post_id = p.id := by simpa using hxp
            have hxne : (x.post_id == pid) = false := by
              rw [hxeq]
              simpa using hne2
            simp [hxp, hxne]
          · simp [Bool.eq_false_iff.mpr hxp]
        rw [List.filter_congr hcong]
        exact hlc
      · show p.comments_count = (((db.comments.filter (fun c => !(c.post_id == pid))).filter
          (fun c => c.post_id == p.id)).length : Int)
        rw [List.filter_filter]
        have hcong : ∀ x ∈ db.comments,
            ((x.post_id == p.id) && !(x.post_id == pid)) = (x.post_id == p.id) := by
          intro x hx
          by_cases hxp : (x.post_id == p.id) = true
          · have hxeq : x.post_id = p.id := by simpa using hxp
            have hxne : (x.post_id == pid) = false := by
              rw [hxeq]
              simpa using hne2
            simp [hxp, hxne]
          · simp [Bool.eq_false_iff.mpr hxp]
        rw [List.filter_congr hcong]
        exact hcc
    · intro l hl
      have hl2 : l ∈ db.likes.filter (fun l => !(l.post_id == pid)) := hl
      have hlin := (List.mem_filter.mp hl2).1
      have hlnp : l.post_id ≠ pid := by
        have := (List.mem_filter.mp hl2).2
        simpa using this
      obtain ⟨q, hq, hqid⟩ := List.mem_map.mp (hlr l hlin)
      show l.post_id ∈ (db.posts.eraseP (fun p => p.id == pid)).map (fun p => p.id)
      have hqne : ¬ ((fun p : PostR => p.id == pid) q = true) := by
        simp only [hqid]
        simpa using hlnp
      have hqmem : q ∈ db.posts.eraseP (fun p => p.id == pid) :=
        (@List.mem_eraseP_of_neg _ (fun p : PostR => p.id == pid) q db.posts hqne).mpr hq
      exact hqid ▸ List.mem_map_of_mem _ hqmem
    · intro c hcmem
      have hc2 : c ∈ db.comments.filter (fun c => !(c.post_id == pid)) := hcmem
      have hcin := (List.mem_filter.mp hc2).1
      have hcnp : c.post_id ≠ pid := by
        have := (List.mem_filter.mp hc2).2
        simpa using this
      obtain ⟨q, hq, hqid⟩ := List.mem_map.mp (hcr c hcin)
      show c.post_id ∈ (db.posts.eraseP (fun p => p.id == pid)).map (fun p => p.id)
      have hqne : ¬ ((fun p : PostR => p.id == pid) q = true) := by
        simp only [hqid]
        simpa using hcnp
      have hqmem : q ∈ db.posts.eraseP (fun p => p.id == pid) :=
        (@List.mem_eraseP_of_neg _ (fun p : PostR => p.id == pid) q db.posts hqne).mpr hq
      exact hqid ▸ List.mem_map_of_mem _ hqmem
    · show ((db.posts.eraseP (fun p => p.id == pid)).map (fun p => p.id)).Nodup
      exact ((List.eraseP_sublist db.posts).map (fun p => p.id)).nodup hpn
    · show ((db.likes.filter (fun l => !(l.post_id == pid))).map (fun l => l.id)).Nodup
      exact ((List.filter_sublist db.likes).map (fun l => l.id)).nodup hln

/-- Every core operation preserves the consistency invariant. -/
theorem inv_applyOp (db : DB) (op : Op) (hinv : Inv db)
    (hfr : opFresh db op = true) : Inv (applyOp db op) := by
  cases op with
  | toggleLike cu pid lid t =>
    exact inv_toggle db cu pid lid t hinv (by simpa [opFresh] using hfr)
  | createPost cu content pid t =>
    exact inv_create_post db cu content pid t hinv (by simpa [opFresh] using hfr)
  | createComment cu pid content cid t =>
    exact inv_create_comment db cu pid content cid t hinv
  | deletePost pid =>
    exact inv_delete_post db pid hinv

/-- C2: in every state reachable from a consistent state by the core
operations (toggleLike, createPost, createComment, deletePost, with fresh
uuids along the trace), every post's `likes_count` equals the number of
like relations referencing it and its `comments_count` equals the number of
comments referencing it (the first conjunct of `Inv`). -/
theorem counters_consistent_reachable (db : DB) (ops : List Op)
    (hinv : Inv db) (hfr : opsFresh db ops = true) :
    Inv (applyOps db ops) ∧
    ∀ p ∈ (applyOps db ops).posts,
      p.likes_count =
        (((applyOps db ops).likes.filter (fun l => l.post_id == p.id)).length : Int) ∧
      p.comments_count =
        (((applyOps db ops).comments.filter (fun c => c.post_id == p.id)).length : Int) := by
  have hmain : Inv (applyOps db ops) := by
    induction ops generalizing db with
    | nil => exact hinv
    | cons op rest ih =>
      simp only [opsFresh, Bool.and_eq_true] at hfr
      exact ih (applyOp db op) (inv_applyOp db op hinv hfr.1) hfr.2
  exact ⟨hmain, hmain.1⟩

/-- Witness for C2 at a concrete consistent state and a concrete trace
(a like toggle, a new comment, a new post, then a cascade delete). -/
theorem counters_consistent_reachable_witness :
    Inv dbAlice ∧
    opsFresh dbAlice
      [Op.toggleLike alice "pa" "x1" 30, Op.createComment alice "pa" "good" "c2" 31,
        Op.createPost adaAdmin "hi all" "p2" 32, Op.deletePost "pa"] = true ∧
    Inv (applyOps dbAlice
      [Op.toggleLike alice "pa" "x1" 30, Op.createComment alice "pa" "good" "c2" 31,
        Op.createPost adaAdmin "hi all" "p2" 32, Op.deletePost "pa"]) := by
  refine ⟨by decide, by decide, ?_⟩
  exact (counters_consistent_reachable dbAlice
    [Op.toggleLike alice "pa" "x1" 30, Op.createComment alice "pa" "good" "c2" 31,
      Op.createPost adaAdmin "hi all" "p2" 32, Op.deletePost "pa"]
    (by decide) (by decide)).1

end Flicksy
